import Mathlib

/-!
Verification of the deepfake-live camera pipeline against its design notes.

The definitions below are a shallow embedding, translated from the Python
sources:
  modules/camera.py   (CameraProcessor: bounded frame queues, process loop,
                       performance modes, get_frame)
  modules/core.py     (FaceSwapper: set_source_face, process_frame)
  modules/lip_sync.py (LipSyncProcessor: get_mouth_landmarks, transfer_mouth,
                       process_frame)
External capabilities (face detection, the swap model, landmark extraction,
cv2.resize, cv2.fillPoly, cv2.seamlessClone, cv2.putText) are opaque to the
pipeline and are modelled as function parameters; everything the pipeline
itself computes is modelled concretely.  The file is organised as definitions
first, then theorems.
-/

namespace Camera

/-!
BoundedFrameChannel: both frame queues in camera.py are queue.Queue(maxsize=2)
and every producer site pushes with the pattern

    if q.full(): q.get_nowait()   -- drop the oldest frame
    q.put_nowait(frame)

(camera.py lines 143-153 for the input queue, lines 233-243 for the output
queue).  The channel is modelled as a list holding the oldest element first;
chanPush is the push pattern above.  Both get_nowait and put_nowait are
non-blocking, and after evicting one element the queue cannot be full, so the
producer is never blocked and never fails: in the model chanPush is a total
function.
-/

/-- One producer push: evict the oldest element when full, then append. -/
def chanPush (cap : Nat) (q : List α) (x : α) : List α :=
  (if cap ≤ q.length then q.drop 1 else q) ++ [x]

/-- A whole sequence of producer pushes, oldest first. -/
def chanPushAll (cap : Nat) (q : List α) (xs : List α) : List α :=
  xs.foldl (chanPush cap) q

/-- CameraProcessor.get_frame (camera.py lines 250-255): a non-blocking
get_nowait on the FIFO output queue, returning none when the queue is empty.
The function returns the popped frame together with the remaining queue. -/
def get_frame (q : List α) : Option α × List α :=
  match q with
  | [] => (none, [])
  | x :: xs => (some x, xs)

/-!
CameraProcessor processing state and loop (camera.py lines 54-68 and 157-248).
Frames are an abstract type F.  The mutable fields that the process loop and
set_performance_mode touch are gathered in CamState; the external operations
used by one full pipeline pass are gathered in PipelineEnv:
  downscale    -- cv2.resize down to (w*scale, h*scale)   (lines 172-176)
  upscale      -- cv2.resize back to the original (w, h)  (line 182)
  face_swapper -- self.face_swapper.process_frame, absent when no swapper
  lip_sync     -- self.lip_sync, carrying its own enabled flag and
                  process_frame(original, processed)      (lines 185-189)
  overlay      -- the cv2.putText FPS and mode diagnostic overlay that the
                  loop draws onto every produced frame    (lines 207-227)
putText mutates the frame object in place, and in the reuse branch the
processed frame is the same object as last_processed_frame, so the overlay
re-drawn there lands on the stored frame as well; the model makes that
aliasing explicit by storing the overlaid frame back into last_processed.
-/

structure CamState (F : Type) where
  skip_frames : Nat
  resolution_scale : ℚ
  frame_counter : Nat
  last_processed : Option F
  enable_lip_sync : Bool

/-- CameraProcessor.set_performance_mode (camera.py lines 261-276): an
if/elif/else chain, with every mode other than fast and balanced (including
quality) falling into the else branch. -/
def set_performance_mode {F : Type} (mode : String) (st : CamState F) :
    CamState F :=
  if mode = "fast" then
    { st with skip_frames := 3, resolution_scale := 2/5 }
  else if mode = "balanced" then
    { st with skip_frames := 2, resolution_scale := 1/2 }
  else
    { st with skip_frames := 1, resolution_scale := 4/5 }

structure PipelineEnv (F : Type) where
  downscale : ℚ → F → F
  upscale : F → F
  face_swapper : Option (F → F)
  lip_sync : Option (Bool × (F → F → F))
  overlay : F → F

/-- One full pipeline pass (camera.py lines 170-191): downscale, swap,
upscale, then lip sync when self.enable_lip_sync, self.lip_sync and
self.lip_sync.enabled all hold; when no face swapper is attached the branch
keeps the raw frame. -/
def fullPass {F : Type} (env : PipelineEnv F) (enable_lip : Bool) (scale : ℚ)
    (frame : F) : F :=
  match env.face_swapper with
  | some swp =>
      let small := env.downscale scale frame
      let processed := env.upscale (swp small)
      match env.lip_sync with
      | some ls => if enable_lip && ls.1 then ls.2 frame processed else processed
      | none => processed
  | none => frame

/-- Events the camera state reacts to: a frame popped from the raw channel,
or an external set_performance_mode call. -/
inductive CamEvent (F : Type) where
  | frame (f : F)
  | setMode (mode : String)

/-- One iteration of CameraProcessor._process_loop (camera.py lines 161-243)
for a popped frame, or one set_performance_mode call.  The loop increments
frame_counter first, takes the full pass when counter mod skip_frames == 0,
and otherwise reuses last_processed_frame (or the raw frame when none exists
yet); the diagnostic overlay is drawn on the produced frame in every branch,
and by aliasing also lands on the stored last_processed_frame. -/
def camStep {F : Type} (env : PipelineEnv F) (st : CamState F) :
    CamEvent F → CamState F × Option F
  | .setMode m => (set_performance_mode m st, none)
  | .frame f =>
      let counter := st.frame_counter + 1
      if counter % st.skip_frames = 0 then
        let out := env.overlay (fullPass env st.enable_lip_sync st.resolution_scale f)
        ({ st with frame_counter := counter, last_processed := some out }, some out)
      else
        match st.last_processed with
        | some lp =>
            let out := env.overlay lp
            ({ st with frame_counter := counter, last_processed := some out }, some out)
        | none => ({ st with frame_counter := counter }, some (env.overlay f))

/-- Run the loop over a list of events, collecting the produced output
frames in order. -/
def camRun {F : Type} (env : PipelineEnv F) : CamState F → List (CamEvent F) → List F
  | _, [] => []
  | st, ev :: evs =>
      (camStep env st ev).2.toList ++ camRun env (camStep env st ev).1 evs

/-- The state reached after a list of events. -/
def camFold {F : Type} (env : PipelineEnv F) : CamState F → List (CamEvent F) → CamState F
  | st, [] => st
  | st, ev :: evs => camFold env (camStep env st ev).1 evs

/-- A run of the processing loop over raw frames only (no mode switches). -/
def processRun {F : Type} (env : PipelineEnv F) (st : CamState F)
    (frames : List F) : List F :=
  camRun env st (frames.map CamEvent.frame)

end Camera

namespace FaceSwapper

/-!
FaceSwapper (core.py).  Frames are numpy arrays: mutable buffers.  A buffer
is modelled as an identity tag plus its pixel content P; cv2.putText mutates
the buffer in place (same id, new content), while numpy copy() allocates a
fresh buffer, modelled by the successor id, which differs from the id of the
frame it copies.  External capabilities that can raise a Python exception
(face_app.get and face_swapper.get) return Except values; process_frame
catches them (core.py lines 150-182), so its own return type carries no
error case.  Besides the returned buffer, process_frame also returns the
final pixel content of the caller's input buffer, making in-place mutation
of the input observable in the model.
-/

structure Buf (P : Type) where
  id : Nat
  pix : P

/-- numpy frame.copy() (core.py line 158): a fresh buffer, distinct from the
input buffer, with the same pixel content. -/
def copyBuf {P : Type} (b : Buf P) : Buf P := ⟨b.id + 1, b.pix⟩

structure SwapEnv (P Face E S : Type) where
  detect : P → Except E (List Face)
  swapGet : S → P → Face → Face → Except E P
  drawWarn : P → P
  drawErr : E → P → P

/-- The swap loop of core.py lines 159-166: result = swapper.get(result,
target_face, source_face) over the detected faces in order, stopping with
the exception when one raises. -/
def runSwaps {P Face E S : Type} (env : SwapEnv P Face E S) (sw : S)
    (src : Face) : List Face → P → Except E P
  | [], acc => .ok acc
  | f :: fs, acc =>
      match env.swapGet sw acc f src with
      | .ok r => runSwaps env sw src fs r
      | .error e => .error e

/-- FaceSwapper.set_source_face (core.py lines 89-121): read the image (None
on failure), detect faces, install the first detected face; on any failure
return False leaving self.source_face untouched. -/
def set_source_face {Img Face : Type} (imread : String → Option Img)
    (detect : Img → List Face) (source_face : Option Face)
    (image_path : String) : Bool × Option Face :=
  match imread image_path with
  | none => (false, source_face)
  | some img =>
      match detect img with
      | [] => (false, source_face)
      | f :: _ => (true, some f)

/-- FaceSwapper.process_frame (core.py lines 123-182).  Returns the produced
buffer together with the final pixel content of the input buffer. -/
def process_frame {P Face E S : Type} (env : SwapEnv P Face E S)
    (source_face : Option Face) (face_swapper : Option S) (frame : Buf P) :
    Buf P × P :=
  match source_face with
  | none => (frame, frame.pix)
  | some src =>
      match face_swapper with
      | none =>
          (⟨frame.id, env.drawWarn frame.pix⟩, env.drawWarn frame.pix)
      | some sw =>
          match env.detect frame.pix with
          | .error e =>
              (⟨frame.id, env.drawErr e frame.pix⟩, env.drawErr e frame.pix)
          | .ok target_faces =>
              if target_faces.isEmpty then (frame, frame.pix)
              else
                match runSwaps env sw src target_faces (copyBuf frame).pix with
                | .ok r => (⟨(copyBuf frame).id, r⟩, frame.pix)
                | .error e =>
                    (⟨frame.id, env.drawErr e frame.pix⟩, env.drawErr e frame.pix)

end FaceSwapper

namespace LipSync

/-!
LipSyncProcessor (lip_sync.py).  Frames are BGR uint8 numpy arrays, modelled
as lists of rows of pixels, a pixel being a triple of rationals; masks are
lists of rows of rationals.  Landmark points (dlib shape.part coordinates,
stored as float32 and converted back with astype(int32)) are integer pairs.
The astype(np.uint8) cast at the end of the alpha blend is modelled as the
integer floor (the blended values are convex combinations of values in
[0, 255], hence non-negative and below 256, so the uint8 cast is exactly the
floor).  External capabilities -- the dlib detector and shape predictor,
cv2.fillPoly rasterisation, cv2.resize interpolation, cv2.seamlessClone --
are opaque and live in LipEnv; cv2.seamlessClone may fail (it is wrapped in
try/except in the source), which the model expresses by an Option result.
-/

abbrev Pix : Type := ℚ × ℚ × ℚ

abbrev Image : Type := List (List Pix)

abbrev Point : Type := ℤ × ℤ

/-- numpy shape[0] of a frame. -/
def imgRows (img : Image) : Nat := img.length

/-- numpy shape[1] of a frame (the length of its first row). -/
def imgCols (img : Image) : Nat := (img.headD []).length

/-- numpy .size of a frame region: three channel values per pixel. -/
def imgSize (img : Image) : Nat := 3 * (img.map List.length).sum

/-- cv2.boundingRect of an integer point set: (x, y, w, h) with x, y the
minimal coordinates and w, h the extents plus one. -/
def boundingRect : List Point → ℤ × ℤ × ℤ × ℤ
  | [] => (0, 0, 0, 0)
  | p :: ps =>
      let minx := ps.foldl (fun a q => min a q.1) p.1
      let miny := ps.foldl (fun a q => min a q.2) p.2
      let maxx := ps.foldl (fun a q => max a q.1) p.1
      let maxy := ps.foldl (fun a q => max a q.2) p.2
      (minx, miny, maxx - minx + 1, maxy - miny + 1)

/-- The padding and clamping applied to a mouth bounding rectangle
(lip_sync.py lines 83-93): move the corner out by the fixed margin 10
clamped at 0, and clamp the padded extent to the image bounds.  Nat results
via Int.toNat, matching empty numpy slices for negative extents. -/
def clampedRect (W H : Nat) (pts : List Point) : Nat × Nat × Nat × Nat :=
  let r := boundingRect pts
  let x := max 0 (r.1 - 10)
  let y := max 0 (r.2.1 - 10)
  let w := min ((W : ℤ) - x) (r.2.2.1 + 2 * 10)
  let h := min ((H : ℤ) - y) (r.2.2.2 + 2 * 10)
  (x.toNat, y.toNat, w.toNat, h.toNat)

/-- numpy rectangular slice img[y0:y0+h, x0:x0+w]. -/
def region2 {γ : Type} (img : List (List γ)) (y0 h x0 w : Nat) :
    List (List γ) :=
  ((img.drop y0).take h).map (fun row => (row.drop x0).take w)

/-- numpy row-segment assignment row[x0:x0+seg.length] = seg. -/
def setRow {γ : Type} (row : List γ) (x0 : Nat) (seg : List γ) : List γ :=
  row.take x0 ++ (seg ++ row.drop (x0 + seg.length))

/-- numpy rectangular slice assignment
img[y0:y0+patch.length, x0:x0+width] = patch. -/
def setRegion {γ : Type} (img : List (List γ)) (y0 x0 : Nat)
    (patch : List (List γ)) : List (List γ) :=
  img.take y0 ++
    (List.zipWith (fun row prow => setRow row x0 prow)
        ((img.drop y0).take patch.length) patch ++
      img.drop (y0 + patch.length))

/-- Pointwise zip of three lists, truncating at the shortest. -/
def zipWith3 {α β γ δ : Type} (f : α → β → γ → δ) :
    List α → List β → List γ → List δ
  | a :: as, b :: bs, c :: cs => f a b c :: zipWith3 f as bs cs
  | _, _, _ => []

/-- The per-pixel alpha blend of lip_sync.py lines 114-117, including the
astype(np.uint8) truncation modelled as the floor: the mask value m (0 or
255 from fillPoly) is normalised by 255 and broadcast over the three
channels. -/
def blendPx (m : ℚ) (t s : Pix) : Pix :=
  let a := m / 255
  (((⌊t.1 * (1 - a) + s.1 * a⌋ : ℤ) : ℚ),
    ((⌊t.2.1 * (1 - a) + s.2.1 * a⌋ : ℤ) : ℚ),
    ((⌊t.2.2 * (1 - a) + s.2.2 * a⌋ : ℤ) : ℚ))

/-- The whole blended patch: result_region * (1 - mask3) + resized * mask3,
elementwise over the target region, the resized source patch, and the mask
region broadcast to the three channels. -/
def blendPatch (treg sreg : Image) (mreg : List (List ℚ)) : Image :=
  zipWith3 (fun trow srow mrow =>
    zipWith3 (fun t s m => blendPx m t s) trow srow mrow) treg sreg mreg

/-- The alpha-blend formula exactly as the design notes state it (no
truncation): result = target * (1 - mask) + resized_source * mask with the
mask normalised from 0 or 255 to 0 or 1 and broadcast across the channels. -/
def blendFormula (m : ℚ) (t s : Pix) : Pix :=
  let a := m / 255
  (t.1 * (1 - a) + s.1 * a, t.2.1 * (1 - a) + s.2.1 * a,
    t.2.2 * (1 - a) + s.2.2 * a)

/-- A pixel whose three channels are integers (uint8 array contents). -/
def isIntPix (p : Pix) : Prop :=
  p.1.den = 1 ∧ p.2.1.den = 1 ∧ p.2.2.den = 1

instance (p : Pix) : Decidable (isIntPix p) := by
  unfold isIntPix; infer_instance

/-- Access a pixel, defaulting to black outside the frame. -/
def pixAt (img : Image) (y x : Nat) : Pix := (img.getD y []).getD x (0, 0, 0)

/-- Access a mask entry, defaulting to 0 outside the mask. -/
def maskAt (m : List (List ℚ)) (y x : Nat) : ℚ := (m.getD y []).getD x 0

/-- The external capabilities used by LipSyncProcessor. -/
structure LipEnv where
  detector : Image → List Nat
  shapePart : Image → Nat → Nat → Point
  fillPolyMask : Nat → Nat → List Point → List (List ℚ)
  resize : Image → Nat → Nat → Image
  seamless : Image → Image → List (List ℚ) → Nat × Nat → Option Image

/-- LipSyncProcessor.get_mouth_landmarks (lip_sync.py lines 29-56): when the
processor is disabled, or the detector finds no face, return None; otherwise
extract landmark points 48 to 67 of the first detected face. -/
def get_mouth_landmarks (env : LipEnv) (enabled : Bool) (image : Image) :
    Option (List Point) :=
  if !enabled then none
  else
    match env.detector image with
    | [] => none
    | face :: _ =>
        some ((List.range 20).map (fun i => env.shapePart image face (48 + i)))

/-- LipSyncProcessor.transfer_mouth (lip_sync.py lines 58-136): mask the
target mouth polygon, pad and clamp both mouth bounding rectangles, extract
and resize the source mouth region, alpha-blend it into the target region,
then attempt the seamless clone, keeping the alpha-blend result when that
fails. -/
def transfer_mouth (env : LipEnv) (source_frame target_frame : Image)
    (source_mouth target_mouth : Option (List Point)) : Image :=
  match source_mouth, target_mouth with
  | some sm, some tm =>
      let mask := env.fillPolyMask (imgRows target_frame) (imgCols target_frame) tm
      let sr := clampedRect (imgCols source_frame) (imgRows source_frame) sm
      let tr := clampedRect (imgCols target_frame) (imgRows target_frame) tm
      let source_mouth_region := region2 source_frame sr.2.1 sr.2.2.2 sr.1 sr.2.2.1
      if 0 < imgSize source_mouth_region then
        let resized_mouth := env.resize source_mouth_region tr.2.2.1 tr.2.2.2
        let mouth_mask := region2 mask tr.2.1 tr.2.2.2 tr.1 tr.2.2.1
        let blended :=
          blendPatch (region2 target_frame tr.2.1 tr.2.2.2 tr.1 tr.2.2.1)
            resized_mouth mouth_mask
        let result := setRegion target_frame tr.2.1 tr.1 blended
        let center := (tr.1 + tr.2.2.1 / 2, tr.2.1 + tr.2.2.2 / 2)
        match env.seamless resized_mouth result mouth_mask center with
        | some r => r
        | none => result
      else target_frame
  | _, _ => target_frame

/-- LipSyncProcessor.process_frame (lip_sync.py lines 138-157): identity on
the swapped frame when disabled, otherwise extract both mouth landmark sets
and transfer. -/
def process_frame (env : LipEnv) (enabled : Bool)
    (source_frame swapped_frame : Image) : Image :=
  if !enabled then swapped_frame
  else
    transfer_mouth env source_frame swapped_frame
      (get_mouth_landmarks env enabled source_frame)
      (get_mouth_landmarks env enabled swapped_frame)

end LipSync

/-- Concrete lip-sync environment whose detector finds no face. -/
def c6env : LipSync.LipEnv :=
  ⟨fun _ => [], fun _ _ _ => (0, 0), fun _ _ _ => [], fun _ _ _ => [],
    fun _ _ _ _ => none⟩

/-- Concrete 2 by 2 target frame with integer pixels. -/
def c7target : LipSync.Image :=
  [[(1, 2, 3), (4, 5, 6)], [(7, 8, 9), (10, 11, 12)]]

/-- Concrete 2 by 2 source frame with integer pixels. -/
def c7source : LipSync.Image :=
  [[(13, 14, 15), (16, 17, 18)], [(19, 20, 21), (22, 23, 24)]]

/-- Concrete lip-sync environment with a binary 2 by 2 mask, a constant
integer-pixel resize result, and an unavailable seamless clone. -/
def c7env : LipSync.LipEnv :=
  ⟨fun _ => [0], fun _ _ _ => (0, 0),
    fun _ _ _ => [[255, 0], [0, 255]],
    fun _ _ _ => [[(20, 21, 22), (23, 24, 25)], [(26, 27, 28), (29, 30, 31)]],
    fun _ _ _ _ => none⟩

/-- Concrete imread over Nat images that always succeeds. -/
def c3imread : String → Option Nat := fun _ => some 1

/-- Concrete detector that finds no face in any still image. -/
def c3detect : Nat → List Nat := fun _ => []

/-- Concrete swap environment whose detector raises on every frame. -/
def c4env : FaceSwapper.SwapEnv Nat Unit Unit Unit :=
  ⟨fun _ => .error (), fun _ p _ _ => .ok p, fun p => p + 40, fun _ p => p + 50⟩

/-- Concrete swap environment with a pure two-face detector and a pure swap
operation. -/
def c5env : FaceSwapper.SwapEnv Nat Nat Unit Unit :=
  ⟨fun _ => .ok [1, 2], fun _ p f _ => .ok (p + f), fun p => p + 40,
    fun _ p => p + 50⟩

/-- Concrete pipeline environment over Nat frames whose overlay changes the
frame, standing for the cv2.putText FPS/mode text that modifies pixels. -/
def c1CEenv : Camera.PipelineEnv Nat :=
  ⟨fun _ n => n, id, some id, none, Nat.succ⟩

/-- Concrete pipeline environment over Nat frames with an idempotent overlay
(re-drawing the same diagnostic text leaves the frame unchanged). -/
def c1Wenv : Camera.PipelineEnv Nat :=
  ⟨fun _ n => n + 1, id, some (fun n => n * 10), none, fun _ => 42⟩

/-! ## Theorems -/

namespace Camera

theorem chanPush_length_le (q : List α) (x : α) (h : q.length ≤ 2) :
    (chanPush 2 q x).length ≤ 2 := by
  unfold chanPush
  by_cases h2 : 2 ≤ q.length
  · simp only [h2, if_true, List.length_append, List.length_drop,
      List.length_cons, List.length_nil]
    omega
  · simp only [h2, if_false, List.length_append, List.length_cons,
      List.length_nil]
    omega

theorem chanPushAll_eq_drop :
    ∀ (xs : List α) (q : List α), q.length ≤ 2 → 2 ≤ xs.length →
      chanPushAll 2 q xs = xs.drop (xs.length - 2) := by
  intro xs
  induction xs with
  | nil => intro q _ h; simp at h
  | cons x xs ih =>
    intro q hq hlen
    have hstep : chanPushAll 2 q (x :: xs) = chanPushAll 2 (chanPush 2 q x) xs := rfl
    by_cases h2 : 2 ≤ xs.length
    · rw [hstep, ih _ (chanPush_length_le q x hq) h2]
      have hidx : (x :: xs).length - 2 = (xs.length - 2) + 1 := by
        simp only [List.length_cons]; omega
      rw [hidx, List.drop_succ_cons]
    · -- here xs has exactly one element
      have hone : xs.length = 1 := by
        simp only [List.length_cons] at hlen; omega
      obtain ⟨y, hy⟩ := List.length_eq_one.mp hone
      subst hy
      rcases q with _ | ⟨a, _ | ⟨b, _ | ⟨c, t⟩⟩⟩
      · rfl
      · rfl
      · rfl
      · simp at hq

/-- Unfolding lemma for the process loop when the incremented counter hits
the skip interval: the head output is a full pipeline pass with the overlay
drawn on it, and it is stored as the new last_processed frame. -/
theorem processRun_cons_full {F : Type} (env : PipelineEnv F) (st : CamState F)
    (f : F) (fs : List F)
    (h : (st.frame_counter + 1) % st.skip_frames = 0) :
    processRun env st (f :: fs) =
      env.overlay (fullPass env st.enable_lip_sync st.resolution_scale f) ::
        processRun env
          { st with
            frame_counter := st.frame_counter + 1,
            last_processed :=
              some (env.overlay (fullPass env st.enable_lip_sync st.resolution_scale f)) }
          fs := by
  simp [processRun, camRun, camStep, h]

/-- Unfolding lemma for a reuse iteration with an available last processed
frame: the overlay is re-drawn on it (in place, hence also in the store). -/
theorem processRun_cons_reuse_some {F : Type} (env : PipelineEnv F)
    (st : CamState F) (f lp : F) (fs : List F)
    (h : ¬ (st.frame_counter + 1) % st.skip_frames = 0)
    (hlp : st.last_processed = some lp) :
    processRun env st (f :: fs) =
      env.overlay lp ::
        processRun env
          { st with
            frame_counter := st.frame_counter + 1,
            last_processed := some (env.overlay lp) } fs := by
  simp [processRun, camRun, camStep, h, hlp]

/-- Unfolding lemma for a reuse iteration before any full pass exists: the
raw frame is emitted with the overlay drawn on it, and last_processed stays
empty. -/
theorem processRun_cons_reuse_none {F : Type} (env : PipelineEnv F)
    (st : CamState F) (f : F) (fs : List F)
    (h : ¬ (st.frame_counter + 1) % st.skip_frames = 0)
    (hlp : st.last_processed = none) :
    processRun env st (f :: fs) =
      env.overlay f ::
        processRun env { st with frame_counter := st.frame_counter + 1 } fs := by
  simp [processRun, camRun, camStep, h, hlp]

theorem processRun_length {F : Type} (env : PipelineEnv F) :
    ∀ (frames : List F) (st : CamState F),
      (processRun env st frames).length = frames.length := by
  intro frames
  induction frames with
  | nil => intro st; rfl
  | cons f fs ih =>
    intro st
    by_cases h : (st.frame_counter + 1) % st.skip_frames = 0
    · rw [processRun_cons_full env st f fs h]
      simp [ih]
    · rcases hlp : st.last_processed with _ | lp
      · rw [processRun_cons_reuse_none env st f fs h hlp]
        simp [ih]
      · rw [processRun_cons_reuse_some env st f lp fs h hlp]
        simp [ih]

/-- With skip_frames = 2, the position whose incremented counter is even
receives a full pipeline pass (with the overlay drawn on it). -/
theorem processRun_full_pos {F : Type} (env : PipelineEnv F) :
    ∀ (frames : List F) (st : CamState F) (i : Nat),
      st.skip_frames = 2 → i < frames.length →
      (st.frame_counter + i + 1) % 2 = 0 →
      (processRun env st frames)[i]? =
        (frames[i]?).map
          (fun f => env.overlay (fullPass env st.enable_lip_sync st.resolution_scale f)) := by
  intro frames
  induction frames with
  | nil => intro st i _ hi _; simp at hi
  | cons f fs ih =>
    intro st i hskip hi hpar
    cases i with
    | zero =>
      have h0 : (st.frame_counter + 1) % st.skip_frames = 0 := by
        rw [hskip]; omega
      rw [processRun_cons_full env st f fs h0]
      simp
    | succ j =>
      have hj : j < fs.length := by simpa using hi
      by_cases hc : (st.frame_counter + 1) % st.skip_frames = 0
      · rw [processRun_cons_full env st f fs hc]
        simp only [List.getElem?_cons_succ]
        apply ih
        · exact hskip
        · exact hj
        · show (st.frame_counter + 1 + j + 1) % 2 = 0
          omega
      · rcases hlp : st.last_processed with _ | lp
        · rw [processRun_cons_reuse_none env st f fs hc hlp]
          simp only [List.getElem?_cons_succ]
          apply ih
          · exact hskip
          · exact hj
          · show (st.frame_counter + 1 + j + 1) % 2 = 0
            omega
        · rw [processRun_cons_reuse_some env st f lp fs hc hlp]
          simp only [List.getElem?_cons_succ]
          apply ih
          · exact hskip
          · exact hj
          · show (st.frame_counter + 1 + j + 1) % 2 = 0
            omega

/-- With skip_frames = 2 and an idempotent overlay, a reuse position (the
incremented counter is odd) emits the same frame as the position before it,
which was a full pass. -/
theorem processRun_reuse_pos {F : Type} (env : PipelineEnv F)
    (hidem : ∀ g, env.overlay (env.overlay g) = env.overlay g) :
    ∀ (frames : List F) (st : CamState F) (i : Nat),
      st.skip_frames = 2 → 1 ≤ i → i < frames.length →
      (st.frame_counter + i + 1) % 2 = 1 →
      (processRun env st frames)[i]? = (processRun env st frames)[i - 1]? := by
  intro frames
  induction frames with
  | nil => intro st i _ _ hi _; simp at hi
  | cons f fs ih =>
    intro st i hskip h1 hi hpar
    match i, h1 with
    | 1, _ =>
      have hfull : (st.frame_counter + 1) % st.skip_frames = 0 := by
        rw [hskip]; omega
      rw [processRun_cons_full env st f fs hfull]
      have hfs : fs.length ≥ 1 := by simpa using hi
      match fs, hfs with
      | f2 :: fs2, _ =>
        rw [processRun_cons_reuse_some env
          { st with
            frame_counter := st.frame_counter + 1,
            last_processed :=
              some (env.overlay
                (fullPass env st.enable_lip_sync st.resolution_scale f)) }
          f2 (env.overlay (fullPass env st.enable_lip_sync st.resolution_scale f))
          fs2 (by show ¬ (st.frame_counter + 1 + 1) % st.skip_frames = 0
                  rw [hskip]; omega)
          rfl]
        simp [hidem]
    | (j + 2), _ =>
      have hj : j + 1 < fs.length := by
        simp only [List.length_cons] at hi; omega
      by_cases hc : (st.frame_counter + 1) % st.skip_frames = 0
      · rw [processRun_cons_full env st f fs hc]
        have hidx : (processRun env
            { st with
              frame_counter := st.frame_counter + 1,
              last_processed :=
                some (env.overlay
                  (fullPass env st.enable_lip_sync st.resolution_scale f)) }
            fs)[j + 1]? =
            (processRun env
              { st with
                frame_counter := st.frame_counter + 1,
                last_processed :=
                  some (env.overlay
                    (fullPass env st.enable_lip_sync st.resolution_scale f)) }
              fs)[j + 1 - 1]? := by
          apply ih
          · exact hskip
          · omega
          · exact hj
          · show (st.frame_counter + 1 + (j + 1) + 1) % 2 = 1
            omega
        simpa using hidx
      · rcases hlp : st.last_processed with _ | lp
        · rw [processRun_cons_reuse_none env st f fs hc hlp]
          have hidx : (processRun env
              { st with frame_counter := st.frame_counter + 1 } fs)[j + 1]? =
              (processRun env
                { st with frame_counter := st.frame_counter + 1 } fs)[j + 1 - 1]? := by
            apply ih
            · exact hskip
            · omega
            · exact hj
            · show (st.frame_counter + 1 + (j + 1) + 1) % 2 = 1
              omega
          simpa using hidx
        · rw [processRun_cons_reuse_some env st f lp fs hc hlp]
          have hidx : (processRun env
              { st with
                frame_counter := st.frame_counter + 1,
                last_processed := some (env.overlay lp) } fs)[j + 1]? =
              (processRun env
                { st with
                  frame_counter := st.frame_counter + 1,
                  last_processed := some (env.overlay lp) } fs)[j + 1 - 1]? := by
            apply ih
            · exact hskip
            · omega
            · exact hj
            · show (st.frame_counter + 1 + (j + 1) + 1) % 2 = 1
              omega
          simpa using hidx

/-- Running the loop over concatenated event lists: the outputs of the first
part are computed from the starting state alone, then the second part runs
from the folded state. -/
theorem camRun_append {F : Type} (env : PipelineEnv F) :
    ∀ (l₁ l₂ : List (CamEvent F)) (st : CamState F),
      camRun env st (l₁ ++ l₂) =
        camRun env st l₁ ++ camRun env (camFold env st l₁) l₂ := by
  intro l₁
  induction l₁ with
  | nil => intro l₂ st; rfl
  | cons ev evs ih =>
    intro l₂ st
    show camRun env st (ev :: (evs ++ l₂)) = _
    rw [camRun, camFold, ih l₂ (camStep env st ev).1, camRun,
      List.append_assoc]

/-- A set_performance_mode event produces no output and switches the
configuration for all later events. -/
theorem camRun_setMode_cons {F : Type} (env : PipelineEnv F)
    (st : CamState F) (mode : String) (evs : List (CamEvent F)) :
    camRun env st (CamEvent.setMode mode :: evs) =
      camRun env (set_performance_mode mode st) evs := by
  rw [camRun]; rfl

end Camera

/-- C2: for every sequence of at least two pushes into a BoundedFrameChannel
of capacity 2 (starting empty), the channel afterwards holds exactly the last
two pushed items, in push order, and never more than two items; each push is
a total function (the producer is never blocked and never fails). -/
theorem C2_bounded_channel_keeps_last_two {α : Type} (xs : List α)
    (h : 2 ≤ xs.length) :
    Camera.chanPushAll 2 ([] : List α) xs = xs.drop (xs.length - 2) ∧
    (Camera.chanPushAll 2 ([] : List α) xs).length = 2 := by
  have hmain := Camera.chanPushAll_eq_drop xs ([] : List α) (by simp) h
  refine ⟨hmain, ?_⟩
  rw [hmain, List.length_drop]
  omega

/-- C2 witness: pushing 1, 2, 3 into the empty capacity-2 channel leaves
exactly the last two items, in order. -/
theorem C2_bounded_channel_keeps_last_two_witness :
    Camera.chanPushAll 2 ([] : List Nat) [1, 2, 3] = [2, 3] ∧
    (Camera.chanPushAll 2 ([] : List Nat) [1, 2, 3]).length = 2 := by
  have h := C2_bounded_channel_keeps_last_two (α := Nat) [1, 2, 3] (by decide)
  simpa using h

/-- C8 counterexample: the output channel is a FIFO queue, so when it holds
two frames, get_frame returns the oldest one, not the most recent.  Pushing
frames 1 then 2 leaves the channel holding [1, 2]; the most recent output is
2, yet get_frame returns 1. -/
theorem C8_get_frame_counterexample :
    (Camera.get_frame (Camera.chanPushAll 2 ([] : List Nat) [1, 2])).1 ≠
      (Camera.chanPushAll 2 ([] : List Nat) [1, 2]).getLast? := by
  decide

/-- C8 (amended): get_frame is non-blocking; when the output channel is empty
it returns none rather than blocking, and when at least one frame is held it
returns the oldest frame currently held (which is the most recent output
exactly when a single frame is held). -/
theorem C8_get_frame_oldest {α : Type} (q : List α) :
    (q = [] → Camera.get_frame q = (none, [])) ∧
    (∀ x t, q = x :: t → (Camera.get_frame q).1 = some x) ∧
    (q.length = 1 → (Camera.get_frame q).1 = q.getLast?) := by
  refine ⟨?_, ?_, ?_⟩
  · intro h; subst h; rfl
  · intro x t h; subst h; rfl
  · intro h
    obtain ⟨y, hy⟩ := List.length_eq_one.mp h
    subst hy; rfl

/-- C8 witness: on the concrete one-element channel [7], get_frame returns
the single (hence most recent) frame, and on the empty channel it returns
none. -/
theorem C8_get_frame_oldest_witness :
    (Camera.get_frame ([7] : List Nat)).1 = ([7] : List Nat).getLast? ∧
    Camera.get_frame ([] : List Nat) = (none, []) := by
  refine ⟨(C8_get_frame_oldest ([7] : List Nat)).2.2 (by decide), ?_⟩
  exact (C8_get_frame_oldest ([] : List Nat)).1 rfl

/-- C1 counterexample: the process loop draws the FPS/mode diagnostic overlay
(cv2.putText, camera.py lines 206-227) onto every produced frame, including a
frame popped before any full pass exists, so that first output does not equal
the raw input frame.  With an overlay that changes the frame (putText changes
pixels), the run over the single raw frame 5 outputs overlay 5 = 6, not 5. -/
theorem C1_first_frame_counterexample :
    Camera.processRun c1CEenv ⟨2, 1/2, 0, none, false⟩ [5] ≠ [5] := by
  decide

/-- C1 (amended): with skip_interval = 2 and frame positions counted from 0,
frames at odd positions 1, 3, 5, ... receive a full pipeline pass followed by
the diagnostic overlay; each frame at even position 2, 4, 6, ... produces an
output equal to the immediately preceding fully-processed output, provided
re-drawing the diagnostic overlay is idempotent (the loop re-draws it on the
reused frame); and a frame arriving before any full pass exists produces the
raw input frame with the diagnostic overlay drawn on it, not the raw frame
unchanged. -/
theorem C1_skip_interval_two {F : Type} (env : Camera.PipelineEnv F)
    (scale : ℚ) (en : Bool) (frames : List F)
    (hidem : ∀ g, env.overlay (env.overlay g) = env.overlay g) :
    (Camera.processRun env ⟨2, scale, 0, none, en⟩ frames).length = frames.length ∧
    (∀ i, i < frames.length → i % 2 = 1 →
      (Camera.processRun env ⟨2, scale, 0, none, en⟩ frames)[i]? =
        (frames[i]?).map (fun f => env.overlay (Camera.fullPass env en scale f))) ∧
    (∀ i, 1 ≤ i → i < frames.length → i % 2 = 0 →
      (Camera.processRun env ⟨2, scale, 0, none, en⟩ frames)[i]? =
        (Camera.processRun env ⟨2, scale, 0, none, en⟩ frames)[i - 1]?) ∧
    (∀ f fs, frames = f :: fs →
      (Camera.processRun env ⟨2, scale, 0, none, en⟩ frames)[0]? =
        some (env.overlay f)) := by
  refine ⟨Camera.processRun_length env frames _, ?_, ?_, ?_⟩
  · intro i hi hpar
    exact Camera.processRun_full_pos env frames _ i rfl hi
      (by show (0 + i + 1) % 2 = 0; omega)
  · intro i h1 hi hpar
    exact Camera.processRun_reuse_pos env hidem frames _ i rfl h1 hi
      (by show (0 + i + 1) % 2 = 1; omega)
  · intro f fs hfr
    subst hfr
    rw [Camera.processRun_cons_reuse_none env _ f fs (by simp) rfl]
    simp

/-- C1 witness: the amended statement instantiated on the concrete
environment c1Wenv (idempotent overlay) and the raw frame run [3, 4, 5]. -/
theorem C1_skip_interval_two_witness :
    (Camera.processRun c1Wenv ⟨2, 1/2, 0, none, false⟩ [3, 4, 5]).length =
        ([3, 4, 5] : List Nat).length ∧
    (∀ i, i < ([3, 4, 5] : List Nat).length → i % 2 = 1 →
      (Camera.processRun c1Wenv ⟨2, 1/2, 0, none, false⟩ [3, 4, 5])[i]? =
        (([3, 4, 5] : List Nat)[i]?).map
          (fun f => c1Wenv.overlay (Camera.fullPass c1Wenv false (1/2) f))) ∧
    (∀ i, 1 ≤ i → i < ([3, 4, 5] : List Nat).length → i % 2 = 0 →
      (Camera.processRun c1Wenv ⟨2, 1/2, 0, none, false⟩ [3, 4, 5])[i]? =
        (Camera.processRun c1Wenv ⟨2, 1/2, 0, none, false⟩ [3, 4, 5])[i - 1]?) ∧
    (∀ f fs, ([3, 4, 5] : List Nat) = f :: fs →
      (Camera.processRun c1Wenv ⟨2, 1/2, 0, none, false⟩ [3, 4, 5])[0]? =
        some (c1Wenv.overlay f)) :=
  C1_skip_interval_two c1Wenv (1/2) false [3, 4, 5] (fun _ => rfl)

/-- C9: the three named performance presets set exactly the documented
skip_interval and process_scale values (quality through the else branch);
a mode switch changes no other state field; and in any event run the outputs
produced before a set_performance_mode call are unchanged by it, while
subsequent processing starts from the switched configuration. -/
theorem C9_performance_profiles {F : Type} (env : Camera.PipelineEnv F)
    (st : Camera.CamState F) :
    ((Camera.set_performance_mode "fast" st).skip_frames = 3 ∧
      (Camera.set_performance_mode "fast" st).resolution_scale = 2/5) ∧
    ((Camera.set_performance_mode "balanced" st).skip_frames = 2 ∧
      (Camera.set_performance_mode "balanced" st).resolution_scale = 1/2) ∧
    ((Camera.set_performance_mode "quality" st).skip_frames = 1 ∧
      (Camera.set_performance_mode "quality" st).resolution_scale = 4/5) ∧
    (∀ mode : String,
      (Camera.set_performance_mode mode st).frame_counter = st.frame_counter ∧
      (Camera.set_performance_mode mode st).last_processed = st.last_processed ∧
      (Camera.set_performance_mode mode st).enable_lip_sync = st.enable_lip_sync) ∧
    (∀ (evs₁ evs₂ : List (Camera.CamEvent F)) (mode : String),
      Camera.camRun env st (evs₁ ++ Camera.CamEvent.setMode mode :: evs₂) =
        Camera.camRun env st evs₁ ++
          Camera.camRun env
            (Camera.set_performance_mode mode (Camera.camFold env st evs₁)) evs₂) := by
  refine ⟨⟨rfl, rfl⟩, ⟨rfl, rfl⟩, ⟨rfl, rfl⟩, ?_, ?_⟩
  · intro mode
    unfold Camera.set_performance_mode
    split
    · exact ⟨rfl, rfl, rfl⟩
    · split
      · exact ⟨rfl, rfl, rfl⟩
      · exact ⟨rfl, rfl, rfl⟩
  · intro evs₁ evs₂ mode
    rw [Camera.camRun_append env evs₁ (Camera.CamEvent.setMode mode :: evs₂) st,
      Camera.camRun_setMode_cons]

namespace FaceSwapper

/-- When every individual swap is pure and succeeds, the swap loop is a left
fold of the swap operation over the detected faces. -/
theorem runSwaps_pure {P Face E S : Type} (env : SwapEnv P Face E S) (sw : S)
    (src : Face) (g : P → Face → P)
    (hpure : ∀ p f, env.swapGet sw p f src = .ok (g p f)) :
    ∀ (faces : List Face) (acc : P),
      runSwaps env sw src faces acc = .ok (faces.foldl g acc) := by
  intro faces
  induction faces with
  | nil => intro acc; rfl
  | cons f fs ih =>
    intro acc
    rw [runSwaps, hpure acc f]
    exact ih (g acc f)

end FaceSwapper

/-- C3: when face detection finds no face in the supplied still image,
set_source_face returns failure (False) and the previously active source
reference, or its absence, is left unchanged; whenever the call fails the
stored reference is unchanged, and a reference is installed only on success
(namely the first detected face). -/
theorem C3_set_source_face_no_face {Img Face : Type}
    (imread : String → Option Img) (detect : Img → List Face)
    (source_face : Option Face) (image_path : String) :
    (∀ img, imread image_path = some img → detect img = [] →
      FaceSwapper.set_source_face imread detect source_face image_path =
        (false, source_face)) ∧
    ((FaceSwapper.set_source_face imread detect source_face image_path).1 = false →
      (FaceSwapper.set_source_face imread detect source_face image_path).2 =
        source_face) ∧
    ((FaceSwapper.set_source_face imread detect source_face image_path).1 = true →
      ∃ img f fs, imread image_path = some img ∧ detect img = f :: fs ∧
        (FaceSwapper.set_source_face imread detect source_face image_path).2 =
          some f) := by
  refine ⟨?_, ?_, ?_⟩
  · intro img h1 h2
    simp [FaceSwapper.set_source_face, h1, h2]
  · intro hfail
    rcases h1 : imread image_path with _ | img
    · simp [FaceSwapper.set_source_face, h1]
    · rcases h2 : detect img with _ | ⟨f, fs⟩
      · simp [FaceSwapper.set_source_face, h1, h2]
      · exfalso
        simp [FaceSwapper.set_source_face, h1, h2] at hfail
  · intro hok
    rcases h1 : imread image_path with _ | img
    · exfalso; simp [FaceSwapper.set_source_face, h1] at hok
    · rcases h2 : detect img with _ | ⟨f, fs⟩
      · exfalso; simp [FaceSwapper.set_source_face, h1, h2] at hok
      · exact ⟨img, f, fs, rfl, h2, by
          simp [FaceSwapper.set_source_face, h1, h2]⟩

/-- C3 witness: with a detector that finds no face, the call on a readable
image fails and keeps the previously stored reference (some 9). -/
theorem C3_set_source_face_no_face_witness :
    FaceSwapper.set_source_face c3imread c3detect (some 9) "face.png" =
      (false, some 9) :=
  (C3_set_source_face_no_face c3imread c3detect (some 9) "face.png").1 1 rfl rfl

/-- C4: process_frame never propagates an exception: its return type has no
error case, and on every degraded path it returns the input frame with a
diagnostic overlay drawn on it instead of raising.  With a source face set:
when the swap model is not loaded the input comes back with the warning
overlay; when per-frame detection raises, the exception is caught and the
input comes back with the error overlay; when any swap inference step
raises, likewise. -/
theorem C4_process_frame_catches {P Face E S : Type}
    (env : FaceSwapper.SwapEnv P Face E S) (frame : FaceSwapper.Buf P)
    (s : Face) (sw : S) :
    (FaceSwapper.process_frame env (some s) none frame =
      (⟨frame.id, env.drawWarn frame.pix⟩, env.drawWarn frame.pix)) ∧
    (∀ e, env.detect frame.pix = .error e →
      FaceSwapper.process_frame env (some s) (some sw) frame =
        (⟨frame.id, env.drawErr e frame.pix⟩, env.drawErr e frame.pix)) ∧
    (∀ faces e, env.detect frame.pix = .ok faces → faces ≠ [] →
      FaceSwapper.runSwaps env sw s faces (FaceSwapper.copyBuf frame).pix =
        .error e →
      FaceSwapper.process_frame env (some s) (some sw) frame =
        (⟨frame.id, env.drawErr e frame.pix⟩, env.drawErr e frame.pix)) := by
  refine ⟨rfl, ?_, ?_⟩
  · intro e hdet
    unfold FaceSwapper.process_frame
    rw [hdet]
  · intro faces e hdet hne hrun
    unfold FaceSwapper.process_frame
    rw [hdet]
    rcases faces with _ | ⟨f0, fs0⟩
    · exact absurd rfl hne
    · simp only [List.isEmpty_cons, if_false, Bool.false_eq_true]
      rw [hrun]

/-- C4 witness: with a detector that raises on every frame, process_frame
returns the input buffer carrying the error overlay (50 added to the pixel
content) instead of propagating the exception. -/
theorem C4_process_frame_catches_witness :
    FaceSwapper.process_frame c4env (some ()) (some ())
      (⟨0, 5⟩ : FaceSwapper.Buf Nat) = (⟨0, 55⟩, 55) :=
  (C4_process_frame_catches c4env ⟨0, 5⟩ () ()).2.1 () rfl

/-- C5: with no source face set, process_frame returns the input frame
unchanged (the very same buffer); with a loaded model and zero detected
target faces likewise; and when faces are detected and every swap succeeds
purely, the result is the left fold of the swap operation over the detected
faces in detection order, starting from a copy of the input frame -- each
swap operates on the result of the previous one, not independently on the
original frame. -/
theorem C5_process_frame_fold {P Face E S : Type}
    (env : FaceSwapper.SwapEnv P Face E S) (frame : FaceSwapper.Buf P)
    (s : Face) (sw : S) (g : P → Face → P) :
    (FaceSwapper.process_frame env none (some sw) frame = (frame, frame.pix)) ∧
    (FaceSwapper.process_frame env none none frame = (frame, frame.pix)) ∧
    (env.detect frame.pix = .ok [] →
      FaceSwapper.process_frame env (some s) (some sw) frame =
        (frame, frame.pix)) ∧
    ((∀ p f, env.swapGet sw p f s = .ok (g p f)) →
      ∀ faces, faces ≠ [] → env.detect frame.pix = .ok faces →
      FaceSwapper.process_frame env (some s) (some sw) frame =
        (⟨(FaceSwapper.copyBuf frame).id,
            faces.foldl g (FaceSwapper.copyBuf frame).pix⟩, frame.pix)) := by
  refine ⟨rfl, rfl, ?_, ?_⟩
  · intro hdet
    unfold FaceSwapper.process_frame
    rw [hdet]
    rfl
  · intro hpure faces hne hdet
    unfold FaceSwapper.process_frame
    rw [hdet]
    rcases faces with _ | ⟨f0, fs0⟩
    · exact absurd rfl hne
    · simp only [List.isEmpty_cons, if_false, Bool.false_eq_true]
      rw [FaceSwapper.runSwaps_pure env sw s g hpure]

/-- C5 witness: with the pure detector returning faces [1, 2] and the pure
swap adding the face to the pixel value, the output is the fold
((5 + 1) + 2) = 8 on a fresh buffer, the caller's frame staying at 5. -/
theorem C5_process_frame_fold_witness :
    FaceSwapper.process_frame c5env (some 0) (some ())
      (⟨0, 5⟩ : FaceSwapper.Buf Nat) = (⟨1, 8⟩, 5) :=
  (C5_process_frame_fold c5env ⟨0, 5⟩ 0 () (fun p f => p + f)).2.2.2
    (fun _ _ => rfl) [1, 2] (by decide) rfl

/-- C10: on the degraded paths (model not loaded, or a caught per-frame
exception) process_frame returns the very same buffer it was given (same
identity) and the caller's input buffer ends up holding the overlaid pixels
-- the overlay is drawn into the input in place; only the successful swap
path first copies the frame, returning a distinct buffer and leaving the
caller's input pixel content unmodified. -/
theorem C10_process_frame_mutation {P Face E S : Type}
    (env : FaceSwapper.SwapEnv P Face E S) (frame : FaceSwapper.Buf P)
    (s : Face) (sw : S) :
    ((FaceSwapper.process_frame env (some s) none frame).1.id = frame.id ∧
      (FaceSwapper.process_frame env (some s) none frame).2 =
        env.drawWarn frame.pix) ∧
    (∀ e, env.detect frame.pix = .error e →
      (FaceSwapper.process_frame env (some s) (some sw) frame).1.id = frame.id ∧
      (FaceSwapper.process_frame env (some s) (some sw) frame).2 =
        env.drawErr e frame.pix) ∧
    (∀ faces e, env.detect frame.pix = .ok faces → faces ≠ [] →
      FaceSwapper.runSwaps env sw s faces (FaceSwapper.copyBuf frame).pix =
        .error e →
      (FaceSwapper.process_frame env (some s) (some sw) frame).1.id = frame.id ∧
      (FaceSwapper.process_frame env (some s) (some sw) frame).2 =
        env.drawErr e frame.pix) ∧
    (∀ faces r, env.detect frame.pix = .ok faces → faces ≠ [] →
      FaceSwapper.runSwaps env sw s faces (FaceSwapper.copyBuf frame).pix =
        .ok r →
      (FaceSwapper.process_frame env (some s) (some sw) frame).1.id ≠ frame.id ∧
      (FaceSwapper.process_frame env (some s) (some sw) frame).2 = frame.pix ∧
      (FaceSwapper.process_frame env (some s) (some sw) frame).1.pix = r) := by
  refine ⟨⟨rfl, rfl⟩, ?_, ?_, ?_⟩
  · intro e hdet
    unfold FaceSwapper.process_frame
    rw [hdet]
    exact ⟨rfl, rfl⟩
  · intro faces e hdet hne hrun
    unfold FaceSwapper.process_frame
    rw [hdet]
    rcases faces with _ | ⟨f0, fs0⟩
    · exact absurd rfl hne
    · simp only [List.isEmpty_cons, if_false, Bool.false_eq_true]
      rw [hrun]
      exact ⟨rfl, rfl⟩
  · intro faces r hdet hne hrun
    unfold FaceSwapper.process_frame
    rw [hdet]
    rcases faces with _ | ⟨f0, fs0⟩
    · exact absurd rfl hne
    · simp only [List.isEmpty_cons, if_false, Bool.false_eq_true]
      rw [hrun]
      exact ⟨by simp [FaceSwapper.copyBuf], rfl, rfl⟩

/-- C10 witness: on the successful swap path with detector faces [1, 2] the
returned buffer is a fresh copy (id 1, not the input id 0) and the caller's
input pixels stay 5; the fold result 8 lives in the fresh buffer. -/
theorem C10_process_frame_mutation_witness :
    (FaceSwapper.process_frame c5env (some 0) (some ())
        (⟨0, 5⟩ : FaceSwapper.Buf Nat)).1.id ≠ 0 ∧
    (FaceSwapper.process_frame c5env (some 0) (some ())
        (⟨0, 5⟩ : FaceSwapper.Buf Nat)).2 = 5 ∧
    (FaceSwapper.process_frame c5env (some 0) (some ())
        (⟨0, 5⟩ : FaceSwapper.Buf Nat)).1.pix = 8 :=
  (C10_process_frame_mutation c5env ⟨0, 5⟩ 0 ()).2.2.2 [1, 2] 8 rfl
    (by decide) rfl

namespace LipSync

theorem zipWith3_length {α β γ δ : Type} (f : α → β → γ → δ) :
    ∀ (as : List α) (bs : List β) (cs : List γ),
      (zipWith3 f as bs cs).length = min (min as.length bs.length) cs.length := by
  intro as
  induction as with
  | nil => intro bs cs; simp [zipWith3]
  | cons a0 as ih =>
    intro bs cs
    cases bs with
    | nil => simp [zipWith3]
    | cons b0 bs =>
      cases cs with
      | nil => simp [zipWith3]
      | cons c0 cs =>
        simp only [zipWith3, List.length_cons, ih]
        omega

theorem zipWith3_getElem? {α β γ δ : Type} (f : α → β → γ → δ) :
    ∀ (as : List α) (bs : List β) (cs : List γ) (i : Nat) (a : α) (b : β)
      (c : γ), as[i]? = some a → bs[i]? = some b → cs[i]? = some c →
      (zipWith3 f as bs cs)[i]? = some (f a b c) := by
  intro as
  induction as with
  | nil => intro bs cs i a b c ha _ _; simp at ha
  | cons a0 as ih =>
    intro bs cs i a b c ha hb hc
    cases bs with
    | nil => simp at hb
    | cons b0 bs =>
      cases cs with
      | nil => simp at hc
      | cons c0 cs =>
        cases i with
        | zero =>
          simp only [List.getElem?_cons_zero, Option.some.injEq] at ha hb hc
          subst ha; subst hb; subst hc
          simp [zipWith3]
        | succ j =>
          simp only [List.getElem?_cons_succ] at ha hb hc
          simpa [zipWith3] using ih bs cs j a b c ha hb hc

theorem region2_length {γ : Type} (img : List (List γ)) (y0 h x0 w : Nat) :
    (region2 img y0 h x0 w).length = min h (img.length - y0) := by
  unfold region2
  simp [List.length_take, List.length_drop]

theorem region2_getElem? {γ : Type} (img : List (List γ)) (y0 h x0 w i : Nat)
    (hi : i < h) :
    (region2 img y0 h x0 w)[i]? =
      (img[y0 + i]?).map (fun row => (row.drop x0).take w) := by
  unfold region2
  rw [List.getElem?_map, List.getElem?_take, if_pos hi, List.getElem?_drop]

theorem sliceRow_getElem? {γ : Type} (row : List γ) (x0 w j : Nat)
    (hj : j < w) : ((row.drop x0).take w)[j]? = row[x0 + j]? := by
  rw [List.getElem?_take, if_pos hj, List.getElem?_drop]

theorem setRow_getElem?_left {γ : Type} (row : List γ) (x0 : Nat)
    (seg : List γ) (x : Nat) (hx : x < x0) (hx0 : x0 ≤ row.length) :
    (setRow row x0 seg)[x]? = row[x]? := by
  unfold setRow
  rw [List.getElem?_append, List.length_take,
    if_pos (show x < min x0 row.length by omega), List.getElem?_take,
    if_pos hx]

theorem setRow_getElem?_mid {γ : Type} (row : List γ) (x0 : Nat)
    (seg : List γ) (x : Nat) (h1 : x0 ≤ x) (h2 : x < x0 + seg.length)
    (hx0 : x0 ≤ row.length) :
    (setRow row x0 seg)[x]? = seg[x - x0]? := by
  unfold setRow
  rw [List.getElem?_append, List.length_take,
    if_neg (show ¬ x < min x0 row.length by omega)]
  rw [List.getElem?_append,
    if_pos (show x - min x0 row.length < seg.length by omega)]
  congr 1
  omega

theorem setRow_getElem?_right {γ : Type} (row : List γ) (x0 : Nat)
    (seg : List γ) (x : Nat) (h : x0 + seg.length ≤ x)
    (hx0 : x0 ≤ row.length) :
    (setRow row x0 seg)[x]? = row[x]? := by
  unfold setRow
  rw [List.getElem?_append, List.length_take,
    if_neg (show ¬ x < min x0 row.length by omega)]
  rw [List.getElem?_append,
    if_neg (show ¬ x - min x0 row.length < seg.length by omega)]
  rw [List.getElem?_drop]
  congr 1
  omega

theorem setRegion_zip_length {γ : Type} (img : List (List γ)) (y0 x0 : Nat)
    (patch : List (List γ)) (hy0 : y0 + patch.length ≤ img.length) :
    (List.zipWith (fun row prow => setRow row x0 prow)
      ((img.drop y0).take patch.length) patch).length = patch.length := by
  rw [List.length_zipWith, List.length_take, List.length_drop]
  omega

theorem setRegion_getElem?_lt {γ : Type} (img : List (List γ)) (y0 x0 : Nat)
    (patch : List (List γ)) (y : Nat) (hy : y < y0) (hy0 : y0 ≤ img.length) :
    (setRegion img y0 x0 patch)[y]? = img[y]? := by
  unfold setRegion
  rw [List.getElem?_append, List.length_take,
    if_pos (show y < min y0 img.length by omega), List.getElem?_take,
    if_pos hy]

theorem setRegion_getElem?_mid {γ : Type} (img : List (List γ)) (y0 x0 : Nat)
    (patch : List (List γ)) (y : Nat) (row prow : List γ)
    (h1 : y0 ≤ y) (h2 : y < y0 + patch.length)
    (hy0 : y0 + patch.length ≤ img.length)
    (hrow : img[y]? = some row) (hprow : patch[y - y0]? = some prow) :
    (setRegion img y0 x0 patch)[y]? = some (setRow row x0 prow) := by
  unfold setRegion
  rw [List.getElem?_append, List.length_take,
    if_neg (show ¬ y < min y0 img.length by omega)]
  rw [List.getElem?_append, setRegion_zip_length img y0 x0 patch hy0,
    if_pos (show y - min y0 img.length < patch.length by omega)]
  have hmin : min y0 img.length = y0 := by omega
  rw [hmin, List.getElem?_zipWith', List.getElem?_take,
    if_pos (show y - y0 < patch.length by omega), List.getElem?_drop,
    show y0 + (y - y0) = y by omega, hrow, hprow]
  rfl

theorem setRegion_getElem?_ge {γ : Type} (img : List (List γ)) (y0 x0 : Nat)
    (patch : List (List γ)) (y : Nat) (h : y0 + patch.length ≤ y)
    (hy0 : y0 + patch.length ≤ img.length) :
    (setRegion img y0 x0 patch)[y]? = img[y]? := by
  unfold setRegion
  rw [List.getElem?_append, List.length_take,
    if_neg (show ¬ y < min y0 img.length by omega)]
  rw [List.getElem?_append, setRegion_zip_length img y0 x0 patch hy0,
    if_neg (show ¬ y - min y0 img.length < patch.length by omega)]
  rw [List.getElem?_drop]
  congr 1
  omega

theorem getD_of_getElem? {γ : Type} (l : List γ) (i : Nat) (d a : γ)
    (h : l[i]? = some a) : l.getD i d = a := by
  rw [List.getD_eq_getElem?_getD, h]
  rfl

theorem pixAt_of_row (img : Image) (y x : Nat) (row : List Pix)
    (h : img[y]? = some row) :
    pixAt img y x = row.getD x ((0 : ℚ), (0 : ℚ), (0 : ℚ)) := by
  unfold pixAt
  rw [getD_of_getElem? img y [] row h]

theorem pixAt_congr_row (img₁ img₂ : Image) (y x : Nat)
    (h : img₁[y]? = img₂[y]?) : pixAt img₁ y x = pixAt img₂ y x := by
  unfold pixAt
  rw [List.getD_eq_getElem?_getD img₁ y, List.getD_eq_getElem?_getD img₂ y, h]

theorem maskAt_of_row (m : List (List ℚ)) (y x : Nat) (row : List ℚ)
    (h : m[y]? = some row) : maskAt m y x = row.getD x (0 : ℚ) := by
  unfold maskAt
  rw [getD_of_getElem? m y [] row h]

theorem clampedRect_bounds (W H : Nat) (pts : List Point)
    (x y w h : Nat) (hcr : clampedRect W H pts = (x, y, w, h))
    (hw : 0 < w) (hh : 0 < h) : x + w ≤ W ∧ y + h ≤ H := by
  simp only [clampedRect, Prod.mk.injEq] at hcr
  obtain ⟨hx, hy, hw2, hh2⟩ := hcr
  omega

theorem blendPx_eq_formula (m : ℚ) (t s : Pix) (hm : m = 0 ∨ m = 255)
    (ht : isIntPix t) (hs : isIntPix s) :
    blendPx m t s = blendFormula m t s := by
  obtain ⟨ht1, ht2, ht3⟩ := ht
  obtain ⟨hs1, hs2, hs3⟩ := hs
  have hfloor : ∀ q : ℚ, q.den = 1 → ((⌊q⌋ : ℤ) : ℚ) = q := by
    intro q hq
    have hnum : (q.num : ℚ) = q := by
      exact_mod_cast (Rat.den_eq_one_iff q).mp hq
    rw [← hnum, Int.floor_intCast]
  rcases hm with hm | hm
  · subst hm
    unfold blendPx blendFormula
    have e1 : ∀ a b : ℚ, a * (1 - (0 : ℚ) / 255) + b * ((0 : ℚ) / 255) = a := by
      intro a b; norm_num
    simp only [e1]
    exact Prod.ext (hfloor _ ht1) (Prod.ext (hfloor _ ht2) (hfloor _ ht3))
  · subst hm
    unfold blendPx blendFormula
    have e1 : ∀ a b : ℚ,
        a * (1 - (255 : ℚ) / 255) + b * ((255 : ℚ) / 255) = b := by
      intro a b; norm_num
    simp only [e1]
    exact Prod.ext (hfloor _ hs1) (Prod.ext (hfloor _ hs2) (hfloor _ hs3))

end LipSync

/-- C6: lip-sync process_frame is the identity on the swapped target frame
whenever the engine is disabled, and likewise whenever landmark extraction
yields no mouth points for the source frame or for the target frame; no
error is raised (the function is total). -/
theorem C6_lip_sync_identity (env : LipSync.LipEnv) (enabled : Bool)
    (source target : LipSync.Image) :
    (LipSync.process_frame env false source target = target) ∧
    (LipSync.get_mouth_landmarks env enabled source = none →
      LipSync.process_frame env enabled source target = target) ∧
    (LipSync.get_mouth_landmarks env enabled target = none →
      LipSync.process_frame env enabled source target = target) := by
  refine ⟨rfl, ?_, ?_⟩
  · intro hs
    cases enabled with
    | false => rfl
    | true =>
      unfold LipSync.process_frame
      simp [hs, LipSync.transfer_mouth]
  · intro ht
    cases enabled with
    | false => rfl
    | true =>
      unfold LipSync.process_frame
      rcases h : LipSync.get_mouth_landmarks env true source with _ | sm <;>
        simp [ht, h, LipSync.transfer_mouth]

/-- C6 witness: with a landmark detector that finds no face, process_frame
returns the swapped frame pixel-for-pixel unchanged. -/
theorem C6_lip_sync_identity_witness :
    LipSync.process_frame c6env true c7source c7target = c7target :=
  (C6_lip_sync_identity c6env true c7source c7target).2.1 rfl

/-- C7: for every mouth transfer in which both padded, bounds-clamped
rectangles are non-degenerate (and the seamless-clone pass is unavailable, so
the first-pass result is returned), the result inside the target rectangle
equals, pixel for pixel, target * (1 - mask) + resized_source * mask with the
target-mouth polygon mask normalised from 0 or 255 to 0 or 1 and broadcast
across the three channels, and every pixel outside the target rectangle
equals the target frame pixel.  The hypotheses state the shapes of the
externally produced mask and resized patch, that the mask is binary, and
that the frames hold integer (uint8) channel values. -/
theorem C7_first_pass_alpha_blend (env : LipSync.LipEnv)
    (source target : LipSync.Image) (sm tm : List LipSync.Point)
    (tx ty tw th sx sy sw sh : Nat)
    (htr : LipSync.clampedRect (LipSync.imgCols target)
      (LipSync.imgRows target) tm = (tx, ty, tw, th))
    (hsr : LipSync.clampedRect (LipSync.imgCols source)
      (LipSync.imgRows source) sm = (sx, sy, sw, sh))
    (hsize : 0 < LipSync.imgSize (LipSync.region2 source sy sh sx sw))
    (htw : 0 < tw) (hth : 0 < th)
    (hrect : ∀ row ∈ target, row.length = LipSync.imgCols target)
    (hmrows : (env.fillPolyMask (LipSync.imgRows target)
      (LipSync.imgCols target) tm).length = LipSync.imgRows target)
    (hmcols : ∀ row ∈ env.fillPolyMask (LipSync.imgRows target)
      (LipSync.imgCols target) tm, row.length = LipSync.imgCols target)
    (hrrows : (env.resize (LipSync.region2 source sy sh sx sw) tw th).length
      = th)
    (hrcols : ∀ row ∈ env.resize (LipSync.region2 source sy sh sx sw) tw th,
      row.length = tw)
    (hseam : ∀ a b c d, env.seamless a b c d = none)
    (hbin : ∀ v, v < LipSync.imgRows target →
      ∀ u, u < LipSync.imgCols target →
      LipSync.maskAt (env.fillPolyMask (LipSync.imgRows target)
        (LipSync.imgCols target) tm) v u = 0 ∨
      LipSync.maskAt (env.fillPolyMask (LipSync.imgRows target)
        (LipSync.imgCols target) tm) v u = 255)
    (hint_t : ∀ v, v < LipSync.imgRows target →
      ∀ u, u < LipSync.imgCols target →
      LipSync.isIntPix (LipSync.pixAt target v u))
    (hint_s : ∀ v, v < th → ∀ u, u < tw → LipSync.isIntPix
      (LipSync.pixAt (env.resize (LipSync.region2 source sy sh sx sw) tw th)
        v u)) :
    ∀ y x, y < LipSync.imgRows target → x < LipSync.imgCols target →
      LipSync.pixAt
        (LipSync.transfer_mouth env source target (some sm) (some tm)) y x =
        if ty ≤ y ∧ y < ty + th ∧ tx ≤ x ∧ x < tx + tw then
          LipSync.blendFormula
            (LipSync.maskAt (env.fillPolyMask (LipSync.imgRows target)
              (LipSync.imgCols target) tm) y x)
            (LipSync.pixAt target y x)
            (LipSync.pixAt
              (env.resize (LipSync.region2 source sy sh sx sw) tw th)
              (y - ty) (x - tx))
        else LipSync.pixAt target y x := by
  intro y x hy hx
  obtain ⟨hxb, hyb⟩ := LipSync.clampedRect_bounds (LipSync.imgCols target)
    (LipSync.imgRows target) tm tx ty tw th htr htw hth
  have hTlen : target.length = LipSync.imgRows target := rfl
  set M := env.fillPolyMask (LipSync.imgRows target) (LipSync.imgCols target)
    tm with hMdef
  set R := env.resize (LipSync.region2 source sy sh sx sw) tw th with hRdef
  set P := LipSync.blendPatch (LipSync.region2 target ty th tx tw) R
    (LipSync.region2 M ty th tx tw) with hPdef
  have hT : LipSync.transfer_mouth env source target (some sm) (some tm) =
      LipSync.setRegion target ty tx P := by
    rw [hPdef, hRdef, hMdef]
    dsimp only [LipSync.transfer_mouth]
    rw [htr, hsr]
    rw [if_pos hsize]
    rw [hseam]
  rw [hT]
  have hPlen : P.length = th := by
    rw [hPdef]
    unfold LipSync.blendPatch
    rw [LipSync.zipWith3_length, LipSync.region2_length,
      LipSync.region2_length, hrrows, hmrows, hTlen]
    omega
  rcases Nat.lt_or_ge y ty with h1 | h1
  · -- above the target rectangle: untouched row
    rw [if_neg (by omega)]
    exact LipSync.pixAt_congr_row _ target y x
      (LipSync.setRegion_getElem?_lt target ty tx P y h1 (by omega))
  · rcases Nat.lt_or_ge y (ty + th) with h2 | h2
    · -- the row intersects the rectangle
      obtain ⟨row, hrow⟩ : ∃ row, target[y]? = some row :=
        ⟨_, List.getElem?_eq_getElem (show y < target.length by omega)⟩
      have hrowlen : row.length = LipSync.imgCols target :=
        hrect row (List.getElem?_mem hrow)
      obtain ⟨mrow, hmrow⟩ : ∃ mrow, M[y]? = some mrow :=
        ⟨_, List.getElem?_eq_getElem (show y < M.length by
          rw [show M.length = LipSync.imgRows target from hmrows]; omega)⟩
      have hmrowlen : mrow.length = LipSync.imgCols target :=
        hmcols mrow (by rw [hMdef] at hmrow; exact List.getElem?_mem hmrow)
      obtain ⟨srow, hsrow⟩ : ∃ srow, R[y - ty]? = some srow :=
        ⟨_, List.getElem?_eq_getElem (show y - ty < R.length by
          rw [show R.length = th from hrrows]; omega)⟩
      have hsrowlen : srow.length = tw :=
        hrcols srow (by rw [hRdef] at hsrow; exact List.getElem?_mem hsrow)
      have hprow : P[y - ty]? =
          some (LipSync.zipWith3 (fun t s m => LipSync.blendPx m t s)
            ((row.drop tx).take tw) srow ((mrow.drop tx).take tw)) := by
        rw [hPdef]
        unfold LipSync.blendPatch
        apply LipSync.zipWith3_getElem?
        · rw [LipSync.region2_getElem? target ty th tx tw (y - ty) (by omega),
            show ty + (y - ty) = y by omega, hrow]
          rfl
        · exact hsrow
        · rw [LipSync.region2_getElem? M ty th tx tw (y - ty) (by omega),
            show ty + (y - ty) = y by omega, hmrow]
          rfl
      have hresrow : (LipSync.setRegion target ty tx P)[y]? =
          some (LipSync.setRow row tx
            (LipSync.zipWith3 (fun t s m => LipSync.blendPx m t s)
              ((row.drop tx).take tw) srow ((mrow.drop tx).take tw))) :=
        LipSync.setRegion_getElem?_mid target ty tx P y row _ h1
          (by omega) (by omega) hrow hprow
      have hprowlen : (LipSync.zipWith3 (fun t s m => LipSync.blendPx m t s)
          ((row.drop tx).take tw) srow ((mrow.drop tx).take tw)).length
          = tw := by
        rw [LipSync.zipWith3_length, List.length_take, List.length_drop,
          List.length_take, List.length_drop, hrowlen, hmrowlen, hsrowlen]
        omega
      rw [LipSync.pixAt_of_row _ y x _ hresrow]
      rcases Nat.lt_or_ge x tx with h3 | h3
      · -- left of the rectangle
        rw [if_neg (by omega)]
        rw [List.getD_eq_getElem?_getD,
          LipSync.setRow_getElem?_left row tx _ x h3 (by omega),
          ← List.getD_eq_getElem?_getD, ← LipSync.pixAt_of_row target y x row hrow]
      · rcases Nat.lt_or_ge x (tx + tw) with h4 | h4
        · -- inside the rectangle: the alpha blend
          rw [if_pos ⟨h1, h2, h3, h4⟩]
          have hrowx : ((row.drop tx).take tw)[x - tx]? =
              some (LipSync.pixAt target y x) := by
            rw [LipSync.sliceRow_getElem? row tx tw (x - tx) (by omega),
              show tx + (x - tx) = x by omega,
              LipSync.pixAt_of_row target y x row hrow]
            obtain ⟨t0, ht0⟩ : ∃ t0, row[x]? = some t0 :=
              ⟨_, List.getElem?_eq_getElem (show x < row.length by omega)⟩
            rw [ht0, LipSync.getD_of_getElem? row x _ t0 ht0]
          have hsrowx : srow[x - tx]? =
              some (LipSync.pixAt R (y - ty) (x - tx)) := by
            rw [LipSync.pixAt_of_row R (y - ty) (x - tx) srow hsrow]
            obtain ⟨s0, hs0⟩ : ∃ s0, srow[x - tx]? = some s0 :=
              ⟨_, List.getElem?_eq_getElem (show x - tx < srow.length by omega)⟩
            rw [hs0, LipSync.getD_of_getElem? srow (x - tx) _ s0 hs0]
          have hmrowx : ((mrow.drop tx).take tw)[x - tx]? =
              some (LipSync.maskAt M y x) := by
            rw [LipSync.sliceRow_getElem? mrow tx tw (x - tx) (by omega),
              show tx + (x - tx) = x by omega,
              LipSync.maskAt_of_row M y x mrow hmrow]
            obtain ⟨m0, hm0⟩ : ∃ m0, mrow[x]? = some m0 :=
              ⟨_, List.getElem?_eq_getElem (show x < mrow.length by omega)⟩
            rw [hm0, LipSync.getD_of_getElem? mrow x _ m0 hm0]
          have hpx : (LipSync.zipWith3 (fun t s m => LipSync.blendPx m t s)
              ((row.drop tx).take tw) srow ((mrow.drop tx).take tw))[x - tx]? =
              some (LipSync.blendPx (LipSync.maskAt M y x)
                (LipSync.pixAt target y x)
                (LipSync.pixAt R (y - ty) (x - tx))) :=
            LipSync.zipWith3_getElem? _ _ _ _ (x - tx) _ _ _ hrowx hsrowx hmrowx
          rw [List.getD_eq_getElem?_getD,
            LipSync.setRow_getElem?_mid row tx _ x h3 (by omega) (by omega),
            hpx]
          exact LipSync.blendPx_eq_formula _ _ _
            (hbin y (by omega) x (by omega))
            (hint_t y (by omega) x (by omega))
            (by rw [hRdef]; exact hint_s (y - ty) (by omega) (x - tx) (by omega))
        · -- right of the rectangle
          rw [if_neg (by omega)]
          rw [List.getD_eq_getElem?_getD,
            LipSync.setRow_getElem?_right row tx _ x (by omega) (by omega),
            ← List.getD_eq_getElem?_getD,
            ← LipSync.pixAt_of_row target y x row hrow]
    · -- below the target rectangle: untouched row
      rw [if_neg (by omega)]
      exact LipSync.pixAt_congr_row _ target y x
        (LipSync.setRegion_getElem?_ge target ty tx P y (by omega) (by omega))

/-- C7 witness: on the concrete 2 by 2 frames, binary mask
[[255, 0], [0, 255]] and constant resize patch, the first-pass result takes
the resized source pixel where the mask is 255 (pixel (0,0)) and the target
pixel where the mask is 0 (pixel (0,1)). -/
theorem C7_first_pass_alpha_blend_witness :
    LipSync.pixAt (LipSync.transfer_mouth c7env c7source c7target
      (some [(0, 0)]) (some [(0, 0)])) 0 0 = (20, 21, 22) ∧
    LipSync.pixAt (LipSync.transfer_mouth c7env c7source c7target
      (some [(0, 0)]) (some [(0, 0)])) 0 1 = (4, 5, 6) := by
  have h := C7_first_pass_alpha_blend c7env c7source c7target [(0, 0)]
    [(0, 0)] 0 0 2 2 0 0 2 2 (by decide) (by decide) (by decide) (by decide)
    (by decide) (by decide) (by decide) (by decide) (by decide) (by decide)
    (fun _ _ _ _ => rfl) (by decide) (by decide) (by decide)
  constructor
  · have h0 := h 0 0 (by decide) (by decide)
    rw [h0, if_pos (by decide)]
    norm_num [LipSync.blendFormula, LipSync.maskAt, LipSync.pixAt, c7env,
      c7target, c7source, LipSync.region2]
  · have h1 := h 0 1 (by decide) (by decide)
    rw [h1, if_pos (by decide)]
    norm_num [LipSync.blendFormula, LipSync.maskAt, LipSync.pixAt, c7env,
      c7target, c7source, LipSync.region2]
